import Mathlib

/-!
Shallow embedding of `pitch-op` (src/index.js), a small arithmetic library
over pitch-array tuples `[fifths, step, octave]`.

Modelling conventions:
  * JavaScript `null` is `Option.none`; an absent pitch argument is
    `(none : Option PitchTuple)`.
  * JavaScript numeric results are `JNum`: an integer or NaN.  All inputs
    in scope are integers, so ordinary arithmetic stays integral; NaN
    arises only when `undefined` (an out-of-range array read) enters
    arithmetic.
  * JavaScript `%` on integers is the truncated remainder, `Int.tmod`.
  * In `+` and `*`, JavaScript coerces `null` to `0`; `undefined` taints
    the whole expression to NaN.
  * The external `pitch-fifths` codec (`fifths(a)` / `fifths.toPitch(p)`)
    is a black box, modelled as an arbitrary `Codec`; theorems that need
    its round-trip behaviour take it as an explicit hypothesis.
-/

namespace PitchOp

/-- Result of JavaScript arithmetic on integer inputs: an integer, or NaN
when `undefined` entered the computation. -/
inductive JNum where
  | int : Int → JNum
  | nan : JNum
deriving DecidableEq, Repr

/-- A pitch or interval in pitch-array format `[fifths, step, octave]`;
the second and third slots may be JavaScript `null`. -/
structure PitchTuple where
  fifths : Int
  step : Option Int
  octave : Option Int
deriving DecidableEq, Repr

/-- A fifths-space pair `[fifths, octaves]` as exchanged with the external
`pitch-fifths` codec; the octaves slot may be `null`. -/
structure FPair where
  f : Int
  oct : Option Int
deriving DecidableEq, Repr

/-- The external fifths-space codec (the `pitch-fifths` module), treated as
a black box: `toF` is the callable conversion `fifths(a)` from a pitch-array
tuple into fifths space, `toPitch` is `fifths.toPitch`. -/
structure Codec where
  toF : PitchTuple → FPair
  toPitch : FPair → PitchTuple

/-- Lookup table `SEMITONES = [0, 2, 4, 5, 7, 9, 11]` (src/index.js line 5). -/
def SEMITONES : List Int := [0, 2, 4, 5, 7, 9, 11]

/-- JavaScript array read `l[i]`: `undefined` (here `none`) when the index
is negative or past the end. -/
def jsIndex (l : List Int) (i : Int) : Option Int :=
  if 0 ≤ i then l[i.toNat]? else none

/-- Embedding of `op.pitchClass = function (p) { return p ? [p[0], p[1], null] : null }`. -/
def pitchClass : Option PitchTuple → Option PitchTuple
  | some p => some ⟨p.fifths, p.step, none⟩
  | none => none

/-- Embedding of `op.setOctave`: the unary function returned by
`setOctave(num)`; the two-argument call `setOctave(num, p)` delegates to it. -/
def setOctave (num : Int) : Option PitchTuple → Option PitchTuple
  | some p => some ⟨p.fifths, p.step, some num⟩
  | none => none

/-- Embedding of `op.simplify = op.setOctave(0)` (src/index.js line 54). -/
def simplify : Option PitchTuple → Option PitchTuple := setOctave 0

/-- Embedding of `op.setDefaultOctave`: returns the input unchanged unless it
is a tuple whose octave slot is `null`, in which case the octave is set. -/
def setDefaultOctave (octave : Int) : Option PitchTuple → Option PitchTuple
  | some i => if i.octave = none then some ⟨i.fifths, i.step, some octave⟩ else some i
  | none => none

/-- Value of `SEMITONES[i[0] % 7] + i[1] + 12 * i[2]` under JavaScript
semantics: `%` is `Int.tmod`, an out-of-range table read gives `undefined`
and taints the sum to NaN, and `null` coerces to `0` in `+` and `*`. -/
def semitonesVal (i : PitchTuple) : JNum :=
  match jsIndex SEMITONES (Int.tmod i.fifths 7) with
  | some s => JNum.int (s + i.step.getD 0 + 12 * i.octave.getD 0)
  | none => JNum.nan

/-- Embedding of `op.semitones` (src/index.js line 89). -/
def semitones : Option PitchTuple → Option JNum
  | some i => some (semitonesVal i)
  | none => none

/-- JavaScript coercion of a possibly-`null` numeric value entering `-`:
`null` becomes `0`. -/
def jsToNum : Option JNum → JNum
  | none => JNum.int 0
  | some v => v

/-- JavaScript subtraction of two numeric values; NaN propagates. -/
def jsSubN : JNum → JNum → JNum
  | JNum.int a, JNum.int b => JNum.int (a - b)
  | _, _ => JNum.nan

/-- Embedding of the function returned by `op.comparator(descending)`
(src/index.js lines 102-105). -/
def comparator (descending : Bool) (a b : Option PitchTuple) : JNum :=
  if descending then jsSubN (jsToNum (semitones b)) (jsToNum (semitones a))
  else jsSubN (jsToNum (semitones a)) (jsToNum (semitones b))

/-- Inner helper `add` on fifths-space pairs (src/index.js lines 118-122):
fifths add, octaves add with `null` propagation. -/
def addF (a b : FPair) : FPair :=
  ⟨a.f + b.f,
    match a.oct, b.oct with
    | some x, some y => some (x + y)
    | _, _ => none⟩

/-- Embedding of `op.add` (src/index.js lines 123-126). -/
def add (c : Codec) : Option PitchTuple → Option PitchTuple → Option PitchTuple
  | some a, some b => some (c.toPitch (addF (c.toF a) (c.toF b)))
  | _, _ => none

/-- Inner helper `subtract` on fifths-space pairs (src/index.js lines
141-145): computes `b - a` componentwise with `null` propagation. -/
def subtractF (a b : FPair) : FPair :=
  ⟨b.f - a.f,
    match a.oct, b.oct with
    | some x, some y => some (y - x)
    | _, _ => none⟩

/-- Embedding of `op.subtract` (src/index.js lines 146-149). -/
def subtract (c : Codec) : Option PitchTuple → Option PitchTuple → Option PitchTuple
  | some a, some b => some (c.toPitch (subtractF (c.toF a) (c.toF b)))
  | _, _ => none

/-- Inner helper `multiply` on a fifths-space pair (src/index.js line 164). -/
def multiplyF (m : Int) (a : FPair) : FPair :=
  ⟨m * a.f,
    match a.oct with
    | some x => some (m * x)
    | none => none⟩

/-- Embedding of `op.multiply` (src/index.js lines 165-168); the scalar is
already numeric, so the `+m` coercion is the identity. -/
def multiply (c : Codec) (m : Int) : Option PitchTuple → Option PitchTuple
  | some a => some (c.toPitch (multiplyF m (c.toF a)))
  | none => none

/-- The spec's semitone formula `SEMITONES[fifths mod 7] + step + 12 * octave`
with the mathematical (nonnegative) remainder, stated from the spec's words
for comparison with the embedded `semitones`. -/
def semitonesFormula (f s o : Int) : Int :=
  (SEMITONES[(f % 7).toNat]?).getD 0 + s + 12 * o

/-- Concrete codec instance used to witness the abstract-codec theorems and
to exhibit counterexamples: fifths space keeps the fifths and octave slots
and forgets the step, decoding restores step `0`.  It satisfies
`toF (toPitch p) = p` for every pair `p`, and `toPitch (toF t) = t` for
every tuple `t` with step `0`. -/
def idCodec : Codec where
  toF := fun t => ⟨t.fifths, t.octave⟩
  toPitch := fun p => ⟨p.f, some 0, p.oct⟩

/-- Helper: adding back a previously subtracted pair in fifths space
recovers the second operand, provided the octave slots do not mix a
`null` first operand with a non-`null` second operand. -/
theorem addF_subtractF (pa pb : FPair) (h : pa.oct ≠ none ∨ pb.oct = none) :
    addF pa (subtractF pa pb) = pb := by
  obtain ⟨fa, oa⟩ := pa
  obtain ⟨fb, ob⟩ := pb
  cases oa <;> cases ob <;> simp_all [addF, subtractF]

/-- Helper: scaling a fifths-space pair by 1 is the identity. -/
theorem multiplyF_one (p : FPair) : multiplyF 1 p = p := by
  obtain ⟨f, o⟩ := p
  cases o <;> simp [multiplyF]

/-- Helper: for a negative dividend not divisible by 7, the JavaScript
remainder `Int.tmod` by 7 is strictly negative. -/
theorem tmod_seven_neg (f : Int) (hneg : f < 0) (hnd : ¬ (7:Int) ∣ f) :
    Int.tmod f 7 < 0 := by
  obtain ⟨m, rfl⟩ : ∃ m : Nat, f = Int.negSucc m := by
    cases f with
    | ofNat k => exact absurd hneg (not_lt.mpr (Int.ofNat_nonneg k))
    | negSucc m => exact ⟨m, rfl⟩
  have hr : Int.tmod (Int.negSucc m) 7 = -((((m + 1) % 7 : Nat)) : Int) := rfl
  have hm0 : (m + 1) % 7 ≠ 0 := by
    intro h0
    apply hnd
    obtain ⟨k, hk⟩ := Nat.dvd_of_mod_eq_zero h0
    refine ⟨-(k:Int), ?_⟩
    rw [Int.negSucc_eq]
    omega
  have hp : 0 < (m + 1) % 7 := Nat.pos_of_ne_zero hm0
  rw [hr]
  omega

/-- C1 (amended): for tuples with non-negative fifths and integer step and
octave slots, `semitones` returns the spec formula
`SEMITONES[fifths mod 7] + step + 12 * octave`; in particular
`semitones((0,0,0)) = 0` and `semitones((1,1,0)) = 3`.  (For negative
fifths not divisible by 7 the claimed formula fails, see the
counterexample.) -/
theorem semitones_matches_formula_nonneg :
    (∀ (f s o : Int), 0 ≤ f →
      semitones (some ⟨f, some s, some o⟩) = some (JNum.int (semitonesFormula f s o))) ∧
    semitones (some ⟨0, some 0, some 0⟩) = some (JNum.int 0) ∧
    semitones (some ⟨1, some 1, some 0⟩) = some (JNum.int 3) := by
  refine ⟨?_, by decide, by decide⟩
  intro f s o hf
  have ht : Int.tmod f 7 = f % 7 := Int.tmod_eq_emod hf (by norm_num)
  have h0 : 0 ≤ f % 7 := Int.emod_nonneg f (by norm_num)
  have h7 : f % 7 < 7 := Int.emod_lt_of_pos f (by norm_num)
  have hlt : (f % 7).toNat < SEMITONES.length := by
    simp only [SEMITONES, List.length]
    omega
  have hget : SEMITONES[(f % 7).toNat]? = some (SEMITONES.get ⟨(f % 7).toNat, hlt⟩) :=
    List.getElem?_eq_getElem hlt
  simp [semitones, semitonesVal, jsIndex, semitonesFormula, ht, h0, hget]

/-- C1 witness: the amended formula theorem applied at the tuple (8, 1, 2). -/
theorem semitones_matches_formula_nonneg_witness :
    semitones (some ⟨8, some 1, some 2⟩) = some (JNum.int (semitonesFormula 8 1 2)) :=
  semitones_matches_formula_nonneg.1 8 1 2 (by decide)

/-- C1 counterexample: at the tuple (-1, 0, 0) the code returns NaN while
the claimed formula `SEMITONES[fifths mod 7] + step + 12 * octave` gives
11, so the claim as stated over all tuples with non-null octave is false. -/
theorem semitones_matches_formula_counterexample :
    semitones (some ⟨-1, some 0, some 0⟩) = some JNum.nan ∧
    semitonesFormula (-1) 0 0 = 11 ∧
    semitones (some ⟨-1, some 0, some 0⟩) ≠ some (JNum.int (semitonesFormula (-1) 0 0)) := by
  decide

/-- C2 counterexample: on the tuple (0, 0, null) `semitones` returns the
ordinary number 0, not a non-numeric NaN result, because JavaScript
evaluates `12 * null` as `0`; the claim that every null-octave tuple
yields a non-numeric result is false. -/
theorem semitones_null_octave_counterexample :
    semitones (some ⟨0, some 0, none⟩) = some (JNum.int 0) ∧
    semitones (some ⟨0, some 0, none⟩) ≠ some JNum.nan := by
  decide

/-- C2 (amended): `semitones` does not guard against a null octave slot;
the null octave is silently coerced to 0, so the result on any tuple with
null octave equals the result on the same tuple with octave 0 (a number
whenever the fifths index is in range, NaN only from a negative index). -/
theorem semitones_null_octave_as_zero (t : PitchTuple) (h : t.octave = none) :
    semitones (some t) = semitones (some ⟨t.fifths, t.step, some 0⟩) := by
  obtain ⟨f, s, o⟩ := t
  obtain rfl : o = none := h
  simp only [semitones, semitonesVal]
  cases jsIndex SEMITONES (Int.tmod f 7) <;> simp

/-- C2 witness: the amended theorem applied at the tuple (3, 1, null). -/
theorem semitones_null_octave_as_zero_witness :
    semitones (some ⟨3, some 1, none⟩) = semitones (some ⟨3, some 1, some 0⟩) :=
  semitones_null_octave_as_zero ⟨3, some 1, none⟩ (by decide)

/-- C3 (amended): `add(a, subtract(a, b))` recovers `b` whenever the codec
round-trips at the intermediate pair and at `b`, and the operands do not
pair a null fifths-space octave in `a` with a non-null one in `b` (in that
remaining case the result's octave is null while b's is not, so the claim
as stated over all tuples fails, see the counterexample). -/
theorem add_subtract_inverse (c : Codec) (a b : PitchTuple)
    (h1 : c.toF (c.toPitch (subtractF (c.toF a) (c.toF b))) = subtractF (c.toF a) (c.toF b))
    (h2 : c.toPitch (c.toF b) = b)
    (h3 : (c.toF a).oct ≠ none ∨ (c.toF b).oct = none) :
    add c (some a) (subtract c (some a) (some b)) = some b := by
  simp only [add, subtract]
  rw [h1, addF_subtractF (c.toF a) (c.toF b) h3, h2]

/-- C3 witness: the inverse law applied with the concrete codec at the
tuples (0, 0, 0) and (1, 0, 0). -/
theorem add_subtract_inverse_witness :
    add idCodec (some ⟨0, some 0, some 0⟩)
      (subtract idCodec (some ⟨0, some 0, some 0⟩) (some ⟨1, some 0, some 0⟩)) =
      some ⟨1, some 0, some 0⟩ :=
  add_subtract_inverse idCodec ⟨0, some 0, some 0⟩ ⟨1, some 0, some 0⟩
    (by decide) (by decide) (Or.inl (by decide))

/-- C3 counterexample: with a codec that round-trips at every relevant
point, taking `a` with null octave and `b` with octave 0 gives
`add(a, subtract(a, b))` with a null octave slot, which differs from `b`;
so the claim over all non-null tuples is false. -/
theorem add_subtract_inverse_counterexample :
    idCodec.toPitch (idCodec.toF ⟨1, some 0, some 0⟩) = ⟨1, some 0, some 0⟩ ∧
    idCodec.toF (idCodec.toPitch (subtractF (idCodec.toF ⟨0, some 0, none⟩)
        (idCodec.toF ⟨1, some 0, some 0⟩))) =
      subtractF (idCodec.toF ⟨0, some 0, none⟩) (idCodec.toF ⟨1, some 0, some 0⟩) ∧
    add idCodec (some ⟨0, some 0, none⟩)
        (subtract idCodec (some ⟨0, some 0, none⟩) (some ⟨1, some 0, some 0⟩)) =
      some ⟨1, some 0, none⟩ ∧
    add idCodec (some ⟨0, some 0, none⟩)
        (subtract idCodec (some ⟨0, some 0, none⟩) (some ⟨1, some 0, some 0⟩)) ≠
      some ⟨1, some 0, some 0⟩ := by
  decide

/-- C4: the combining operations propagate an unset octave: if either
operand of the fifths-space `add`/`subtract` helpers has a null octave
slot, the result octave slot is null, and likewise `multiply` when its
single pitch operand has a null octave slot. -/
theorem combine_propagates_null_octave (c : Codec) (m : Int) (a b : PitchTuple)
    (h : (c.toF a).oct = none ∨ (c.toF b).oct = none) :
    (addF (c.toF a) (c.toF b)).oct = none ∧
    (subtractF (c.toF a) (c.toF b)).oct = none ∧
    ((c.toF a).oct = none → (multiplyF m (c.toF a)).oct = none) := by
  cases hp : (c.toF a).oct <;> cases hq : (c.toF b).oct <;>
    simp_all [addF, subtractF, multiplyF]

/-- C4 witness: propagation of the null octave through add, subtract and
multiply at concrete operands under the concrete codec. -/
theorem combine_propagates_null_octave_witness :
    (addF (idCodec.toF ⟨0, some 0, none⟩) (idCodec.toF ⟨1, some 0, some 2⟩)).oct = none ∧
    (subtractF (idCodec.toF ⟨0, some 0, none⟩) (idCodec.toF ⟨1, some 0, some 2⟩)).oct = none ∧
    ((idCodec.toF ⟨0, some 0, none⟩).oct = none →
      (multiplyF 5 (idCodec.toF ⟨0, some 0, none⟩)).oct = none) :=
  combine_propagates_null_octave idCodec 5 ⟨0, some 0, none⟩ ⟨1, some 0, some 2⟩
    (Or.inl (by decide))

/-- C5: every public operation propagates a null input to a null output:
pitchClass, setOctave, setDefaultOctave and semitones map null to null,
and add, subtract and multiply return null whenever any pitch or interval
argument is null. -/
theorem null_propagation (c : Codec) (n m : Int) (a b : Option PitchTuple) :
    pitchClass none = none ∧
    setOctave n none = none ∧
    setDefaultOctave n none = none ∧
    semitones none = none ∧
    add c a none = none ∧
    add c none b = none ∧
    subtract c a none = none ∧
    subtract c none b = none ∧
    multiply c m none = none := by
  refine ⟨rfl, rfl, rfl, rfl, ?_, ?_, ?_, ?_, rfl⟩ <;>
    first
      | rfl
      | (cases a <;> rfl)

/-- C6: `simplify` is exactly the octave-0 specialization of `setOctave`,
as it is defined to be `setOctave(0)` in the source. -/
theorem simplify_eq_setOctave_zero (t : PitchTuple) :
    simplify (some t) = setOctave 0 (some t) := rfl

/-- C7: for pitches whose semitone heights are numbers `m < n`, the
ascending comparator returns the negative number `m - n` and the
descending comparator returns the positive number `n - m`. -/
theorem comparator_orders_by_semitones (x y : Option PitchTuple) (m n : Int)
    (hx : semitones x = some (JNum.int m)) (hy : semitones y = some (JNum.int n))
    (h : m < n) :
    comparator false x y = JNum.int (m - n) ∧ m - n < 0 ∧
    comparator true x y = JNum.int (n - m) ∧ 0 < n - m := by
  refine ⟨?_, by omega, ?_, by omega⟩ <;>
    simp [comparator, hx, hy, jsToNum, jsSubN]

/-- C7 witness: the comparator law at the pitches (0,0,0) and (1,1,0), of
semitone heights 0 and 3. -/
theorem comparator_orders_by_semitones_witness :
    comparator false (some ⟨0, some 0, some 0⟩) (some ⟨1, some 1, some 0⟩) =
      JNum.int (0 - 3) ∧ (0:Int) - 3 < 0 ∧
    comparator true (some ⟨0, some 0, some 0⟩) (some ⟨1, some 1, some 0⟩) =
      JNum.int (3 - 0) ∧ (0:Int) < 3 - 0 :=
  comparator_orders_by_semitones _ _ 0 3 (by decide) (by decide) (by decide)

/-- C8 (amended): assuming the codec round-trips at `a`, `multiply(1, a)`
equals `a`; `multiply(0, a)` is the zero pair (0,0) mapped through the
codec when a's fifths-space octave is non-null, and the pair (0, null)
mapped through the codec when it is null (in which case it differs from
the claimed zero tuple, see the counterexample). -/
theorem multiply_identity_and_zero (c : Codec) (a : PitchTuple)
    (h1 : c.toPitch (c.toF a) = a) :
    multiply c 1 (some a) = some a ∧
    (∀ x : Int, (c.toF a).oct = some x →
      multiply c 0 (some a) = some (c.toPitch ⟨0, some 0⟩)) ∧
    ((c.toF a).oct = none → multiply c 0 (some a) = some (c.toPitch ⟨0, none⟩)) := by
  refine ⟨?_, ?_, ?_⟩
  · simp only [multiply]
    rw [multiplyF_one, h1]
  · intro x hx
    rcases hp : c.toF a with ⟨f, o⟩
    rw [hp] at hx
    obtain rfl : o = some x := hx
    simp only [multiply]
    rw [hp]
    simp [multiplyF]
  · intro hx
    rcases hp : c.toF a with ⟨f, o⟩
    rw [hp] at hx
    obtain rfl : o = none := hx
    simp only [multiply]
    rw [hp]
    simp [multiplyF]

/-- C8 witness: identity at scalar 1 on the tuple (3, 0, 2) with the
concrete codec. -/
theorem multiply_identity_and_zero_witness :
    multiply idCodec 1 (some ⟨3, some 0, some 2⟩) = some ⟨3, some 0, some 2⟩ :=
  (multiply_identity_and_zero idCodec ⟨3, some 0, some 2⟩ (by decide)).1

/-- C8 counterexample: for a tuple whose fifths-space octave is null the
codec round-trips at it, yet `multiply(0, a)` keeps the null octave and so
differs from the zero pair (0,0) mapped through the codec; the claim over
every non-null tuple is false. -/
theorem multiply_zero_counterexample :
    idCodec.toPitch (idCodec.toF ⟨0, some 0, none⟩) = ⟨0, some 0, none⟩ ∧
    multiply idCodec 0 (some ⟨0, some 0, none⟩) = some ⟨0, some 0, none⟩ ∧
    idCodec.toPitch ⟨0, some 0⟩ = ⟨0, some 0, some 0⟩ ∧
    multiply idCodec 0 (some ⟨0, some 0, none⟩) ≠ some (idCodec.toPitch ⟨0, some 0⟩) := by
  decide

/-- C9: on a tuple with null octave whose JavaScript fifths index is in
table range, `semitones` returns an ordinary number, equal to `semitones`
of the same tuple with octave 0, because JavaScript evaluates `12 * null`
as 0. -/
theorem semitones_null_octave_number (f : Int) (s : Option Int)
    (h : 0 ≤ Int.tmod f 7) :
    ∃ n : Int, semitones (some ⟨f, s, none⟩) = some (JNum.int n) ∧
      semitones (some ⟨f, s, some 0⟩) = some (JNum.int n) := by
  have h7 : Int.tmod f 7 < 7 := Int.tmod_lt_of_pos f (by norm_num)
  have hlt : (Int.tmod f 7).toNat < SEMITONES.length := by
    simp only [SEMITONES, List.length]
    omega
  have hget : SEMITONES[(Int.tmod f 7).toNat]? =
      some (SEMITONES.get ⟨(Int.tmod f 7).toNat, hlt⟩) :=
    List.getElem?_eq_getElem hlt
  refine ⟨SEMITONES.get ⟨(Int.tmod f 7).toNat, hlt⟩ + s.getD 0, ?_, ?_⟩ <;>
    simp [semitones, semitonesVal, jsIndex, h, hget]

/-- C9 witness: the null-octave-as-zero law at the tuple (1, 2, null). -/
theorem semitones_null_octave_number_witness :
    0 ≤ Int.tmod 1 7 ∧
    ∃ n : Int, semitones (some ⟨1, some 2, none⟩) = some (JNum.int n) ∧
      semitones (some ⟨1, some 2, some 0⟩) = some (JNum.int n) :=
  ⟨by decide, semitones_null_octave_number 1 (some 2) (by decide)⟩

/-- C10: on any tuple with non-null octave whose fifths component is
negative and not a multiple of 7, the JavaScript remainder is negative,
the SEMITONES read is out of bounds, and `semitones` returns NaN instead
of the mathematical mod-7 formula value. -/
theorem semitones_negative_fifths_nan (f s o : Int)
    (hneg : f < 0) (hnd : ¬ (7:Int) ∣ f) :
    semitones (some ⟨f, some s, some o⟩) = some JNum.nan := by
  have hmod : Int.tmod f 7 < 0 := tmod_seven_neg f hneg hnd
  simp [semitones, semitonesVal, jsIndex, show ¬ (0:Int) ≤ Int.tmod f 7 by omega]

/-- C10 witness: NaN at the tuple (-1, 0, 0). -/
theorem semitones_negative_fifths_nan_witness :
    (-1 : Int) < 0 ∧ ¬ (7:Int) ∣ (-1 : Int) ∧
    semitones (some ⟨-1, some 0, some 0⟩) = some JNum.nan :=
  ⟨by omega, by omega, semitones_negative_fifths_nan (-1) 0 0 (by omega) (by omega)⟩

end PitchOp
